import Mathlib

/- Verification development for the password generation-and-assessment engine
   and vault store of rexzea/Generated-Password
   (file: "Secure Password Generator/Generated Passwords.py").

   Shallow-embedding conventions:
   * Python ints are modelled as `Int` (lengths that are known to be
     non-negative use `Nat`); Python's float ratios 0.1/0.25/... are modelled
     as the exact rationals they denote (for all lengths up to 10^5 the float
     computation `int(length * ratio)` agrees with exact rational truncation
     for every ratio used by the three profiles, checked exhaustively).
   * Python exceptions are modelled with `Except PyError`; the only
     exceptions the embedded code paths can raise are `ValueError` (from
     `secrets.randbelow` on a non-positive bound) and `ZeroDivisionError`
     (from the entropy division in `_analyze_password`).  `sqlite3.Error`
     is caught inside `_save_password` and never escapes, so it is modelled
     by the `saveFails` oracle rather than by an `Except`.
   * The cryptographically secure randomness consumed by the code
     (`secrets.randbelow`, `secrets.choice`, `SystemRandom().shuffle`,
     `secrets.token_hex`) is modelled by an explicit `Oracle` of draws;
     `shuffle` is any function, and theorems that need it assume only the
     documented contract that a shuffle permutes its input.
   * The sqlite database is modelled as the in-memory `VaultState`:
     the `passwords` table, the `password_history` table and the log lines
     emitted by `_save_password`.  `lastrowid` of a fresh AUTOINCREMENT
     table is the row count plus one, and the `with sqlite3.connect(...)`
     context manager rolls the transaction back on error, so a failed save
     leaves the tables unchanged.
   * `hashlib.sha256(...).hexdigest()` is embedded as a full executable
     SHA-256 over the UTF-8 bytes of the input string. -/

/-- Exceptions that can escape the embedded code paths. -/
inductive PyError where
  | valueError
  | zeroDivisionError
deriving DecidableEq

/-- Python's `int()` truncation of a rational toward zero.  For `0 ≤ q` this
is `⌊q⌋` (see `pyTrunc_eq_floor`); it is written with `Rat.num`/`Rat.den`
division so that it evaluates inside the kernel. -/
def pyTrunc (q : ℚ) : Int :=
  if 0 ≤ q then q.num / (q.den : Int) else -((-q).num / (((-q).den : Int)))

/-- Model of `secrets.randbelow(n)`: raises `ValueError` unless `0 < n`,
otherwise returns a value in `[0, n)`; the caller-supplied draw is reduced
into that range (the library guarantees a uniform value below `n`). -/
def pyRandbelow (n : Int) (draw : Nat) : Except PyError Int :=
  if n ≤ 0 then .error .valueError else .ok ((draw % n.toNat : Nat) : Int)

/-- Python's `string.ascii_uppercase`. -/
def ascii_uppercase : List Char := "ABCDEFGHIJKLMNOPQRSTUVWXYZ".toList

/-- Python's `string.ascii_lowercase`. -/
def ascii_lowercase : List Char := "abcdefghijklmnopqrstuvwxyz".toList

/-- Python's `string.digits`. -/
def digits : List Char := "0123456789".toList

/-- Python's `string.punctuation` (32 ASCII punctuation characters). -/
def punctuation : List Char :=
  "!\"#$%&\x27()*+,-./:;<=>?@[\\]^_\x60\x7b|\x7d~".toList

/-- Result of `_analyze_password` (the `details` dictionary).  The entropy
float is modelled as an exact rational. -/
structure PasswordDetails where
  total_length : Nat
  uppercase_count : Nat
  lowercase_count : Nat
  digit_count : Nat
  special_char_count : Nat
  entropy : ℚ
  complexity_score : Nat
  strength_rating : String
deriving DecidableEq

/-- The strength-rating if/elif/else chain of `_analyze_password`
(`'Lemah'`/`'Sedang'`/`'Kuat'` are Indonesian for Weak/Medium/Strong). -/
def ratingOfScore (score : Nat) : String :=
  if score ≤ 2 then "Lemah" else if score ≤ 4 then "Sedang" else "Kuat"

/-- Body of `_analyze_password` on a non-empty input, field for field:
class counts via `str.isupper`/`islower`/`isdigit`/membership in
`string.punctuation` (the embedded character predicates agree with Python's
on the ASCII characters the generator can emit), entropy
`len * (unique/len)**2` with `unique = len(set(password))`, the six-predicate
complexity score, and the threshold rating. -/
def analyzeDetails (password : List Char) : PasswordDetails :=
  let total_length := password.length
  let uppercase_count := password.countP (fun c => c.isUpper)
  let lowercase_count := password.countP (fun c => c.isLower)
  let digit_count := password.countP (fun c => c.isDigit)
  let special_char_count := password.countP (fun c => decide (c ∈ punctuation))
  let unique_chars := password.toFinset.card
  let entropy : ℚ :=
    (total_length : ℚ) * ((unique_chars : ℚ) / (total_length : ℚ)) ^ 2
  let complexity_score :=
    (if 12 ≤ total_length then 1 else 0) +
    (if 0 < uppercase_count then 1 else 0) +
    (if 0 < lowercase_count then 1 else 0) +
    (if 0 < digit_count then 1 else 0) +
    (if 0 < special_char_count then 1 else 0) +
    (if (3 : ℚ) < entropy then 1 else 0)
  { total_length := total_length
    uppercase_count := uppercase_count
    lowercase_count := lowercase_count
    digit_count := digit_count
    special_char_count := special_char_count
    entropy := entropy
    complexity_score := complexity_score
    strength_rating := ratingOfScore complexity_score }

/-- Model of `_analyze_password`.  On the empty string the Python code
reaches `unique_chars / len(password)` with a zero denominator and raises
`ZeroDivisionError`; on any non-empty input it returns the details
dictionary. -/
def analyze_password (password : List Char) : Except PyError PasswordDetails :=
  if password.length = 0 then .error .zeroDivisionError
  else .ok (analyzeDetails password)

/-- One entry of the `complexity_config` dictionary of `generate_passwords`.
The fields model the source keys `uppercase_ratio`, `lowercase_ratio`,
`digit_ratio`, `special_char_ratio`. -/
structure ComplexityConfig where
  r_upper : ℚ
  r_lower : ℚ
  r_digit : ℚ
  r_special : ℚ
deriving DecidableEq

/-- The `'low'` profile: ratios 0.1 / 0.6 / 0.2 / 0.1. -/
def lowConfig : ComplexityConfig := ⟨1/10, 3/5, 1/5, 1/10⟩

/-- The `'balanced'` profile: ratios 0.25 / 0.25 / 0.25 / 0.25. -/
def balancedConfig : ComplexityConfig := ⟨1/4, 1/4, 1/4, 1/4⟩

/-- The `'high'` profile: ratios 0.3 / 0.2 / 0.3 / 0.2. -/
def highConfig : ComplexityConfig := ⟨3/10, 1/5, 3/10, 1/5⟩

/-- The `complexity_config` dictionary as a partial lookup. -/
def complexity_config (complexity : String) : Option ComplexityConfig :=
  if complexity = "low" then some lowConfig
  else if complexity = "balanced" then some balancedConfig
  else if complexity = "high" then some highConfig
  else none

/-- Model of `complexity_config.get(complexity, complexity_config['balanced'])`:
dictionary lookup with the `'balanced'` entry as default. -/
def currentConfig (complexity : String) : ComplexityConfig :=
  (complexity_config complexity).getD balancedConfig

/-- The quota `uppercase_count = int(length * config['uppercase_ratio'])`. -/
def ucOf (cfg : ComplexityConfig) (length : Int) : Int :=
  pyTrunc ((length : ℚ) * cfg.r_upper)

/-- The quota `lowercase_count = int(length * config['lowercase_ratio'])`. -/
def lcOf (cfg : ComplexityConfig) (length : Int) : Int :=
  pyTrunc ((length : ℚ) * cfg.r_lower)

/-- The quota `digit_count = int(length * config['digit_ratio'])`. -/
def dcOf (cfg : ComplexityConfig) (length : Int) : Int :=
  pyTrunc ((length : ℚ) * cfg.r_digit)

/-- The quota `special_char_count = length - (uppercase_count +
lowercase_count + digit_count)`: the whole remainder goes to the special
class. -/
def scOf (cfg : ComplexityConfig) (length : Int) : Int :=
  length - (ucOf cfg length + lcOf cfg length + dcOf cfg length)

/-- UTF-8 encoding of a single code point (the encoding Python's
`str.encode()` applies). -/
def utf8EncodeCP (n : Nat) : List Nat :=
  if n < 128 then [n]
  else if n < 2048 then
    [192 ||| (n >>> 6), 128 ||| (n &&& 63)]
  else if n < 65536 then
    [224 ||| (n >>> 12), 128 ||| ((n >>> 6) &&& 63), 128 ||| (n &&& 63)]
  else
    [240 ||| (n >>> 18), 128 ||| ((n >>> 12) &&& 63),
     128 ||| ((n >>> 6) &&& 63), 128 ||| (n &&& 63)]

/-- UTF-8 bytes of a string, as in Python's `str.encode()`. -/
def strBytes (s : String) : List Nat :=
  s.data.flatMap (fun c => utf8EncodeCP c.toNat)

/-- Reduction modulo 2^32 for SHA-256's 32-bit word arithmetic. -/
def w32 (x : Nat) : Nat := x % 4294967296

/-- Rotate a 32-bit word right by `n` bits. -/
def rotr32 (n x : Nat) : Nat := w32 ((x >>> n) ||| (x <<< (32 - n)))

/-- SHA-256 `Ch` function. -/
def shaCh (x y z : Nat) : Nat := (x &&& y) ^^^ ((x ^^^ 4294967295) &&& z)

/-- SHA-256 `Maj` function. -/
def shaMaj (x y z : Nat) : Nat := (x &&& y) ^^^ (x &&& z) ^^^ (y &&& z)

/-- SHA-256 big sigma-0. -/
def bigS0 (x : Nat) : Nat := rotr32 2 x ^^^ rotr32 13 x ^^^ rotr32 22 x

/-- SHA-256 big sigma-1. -/
def bigS1 (x : Nat) : Nat := rotr32 6 x ^^^ rotr32 11 x ^^^ rotr32 25 x

/-- SHA-256 small sigma-0. -/
def smallS0 (x : Nat) : Nat := rotr32 7 x ^^^ rotr32 18 x ^^^ (x >>> 3)

/-- SHA-256 small sigma-1. -/
def smallS1 (x : Nat) : Nat := rotr32 17 x ^^^ rotr32 19 x ^^^ (x >>> 10)

/-- The 64 SHA-256 round constants. -/
def shaK : List Nat :=
  [1116352408, 1899447441, 3049323471, 3921009573, 961987163, 1508970993,
   2453635748, 2870763221, 3624381080, 310598401, 607225278, 1426881987,
   1925078388, 2162078206, 2614888103, 3248222580, 3835390401, 4022224774,
   264347078, 604807628, 770255983, 1249150122, 1555081692, 1996064986,
   2554220882, 2821834349, 2952996808, 3210313671, 3336571891, 3584528711,
   113926993, 338241895, 666307205, 773529912, 1294757372, 1396182291,
   1695183700, 1986661051, 2177026350, 2456956037, 2730485921, 2820302411,
   3259730800, 3345764771, 3516065817, 3600352804, 4094571909, 275423344,
   430227734, 506948616, 659060556, 883997877, 958139571, 1322822218,
   1537002063, 1747873779, 1955562222, 2024104815, 2227730452, 2361852424,
   2428436474, 2756734187, 3204031479, 3329325298]

/-- The initial SHA-256 hash state. -/
def shaH0 : List Nat :=
  [1779033703, 3144134277, 1013904242, 2773480762, 1359893119, 2600822924,
   528734635, 1541459225]

/-- Big-endian byte rendering of a number on `n` bytes. -/
def beBytes : Nat → Nat → List Nat
  | 0, _ => []
  | n + 1, v => beBytes n (v >>> 8) ++ [v &&& 255]

/-- SHA-256 message padding: append `0x80`, zeros, and the 64-bit
big-endian bit length, up to a multiple of 64 bytes. -/
def sha256pad (msg : List Nat) : List Nat :=
  msg ++ [128] ++ List.replicate ((64 - ((msg.length + 9) % 64)) % 64) 0 ++
    beBytes 8 (8 * msg.length)

/-- Group bytes four at a time into big-endian 32-bit words. -/
def bytesToWords : List Nat → List Nat
  | a :: b :: c :: d :: rest =>
      ((((a <<< 8) ||| b) <<< 8 ||| c) <<< 8 ||| d) :: bytesToWords rest
  | _ => []

/-- One extension step of the SHA-256 message schedule. -/
def scheduleStep (w : List Nat) : List Nat :=
  w ++ [w32 (smallS1 (w.getD (w.length - 2) 0) + w.getD (w.length - 7) 0 +
             smallS0 (w.getD (w.length - 15) 0) + w.getD (w.length - 16) 0)]

/-- Iterate a function `n` times. -/
def iterN (f : α → α) : Nat → α → α
  | 0, a => a
  | n + 1, a => iterN f n (f a)

/-- The full 64-word SHA-256 message schedule of one block. -/
def fullSchedule (w16 : List Nat) : List Nat := iterN scheduleStep 48 w16

/-- One SHA-256 compression round on the eight working variables. -/
def compressStep (s : List Nat) (kw : Nat × Nat) : List Nat :=
  match s with
  | [a, b, c, d, e, f, g, h] =>
    let t1 := w32 (h + bigS1 e + shaCh e f g + kw.1 + kw.2)
    let t2 := w32 (bigS0 a + shaMaj a b c)
    [w32 (t1 + t2), a, b, c, w32 (d + t1), e, f, g]
  | other => other

/-- Compress one 64-byte block into the running hash state. -/
def compressBlock (h : List Nat) (block : List Nat) : List Nat :=
  let w := fullSchedule (bytesToWords block)
  let s := (shaK.zip w).foldl compressStep h
  (h.zip s).map (fun p => w32 (p.1 + p.2))

/-- Split a padded message into 64-byte blocks (`n` = number of blocks). -/
def chunks64 : Nat → List Nat → List (List Nat)
  | 0, _ => []
  | n + 1, l => l.take 64 :: chunks64 n (l.drop 64)

/-- SHA-256 digest (as bytes) of a byte sequence. -/
def sha256 (msg : List Nat) : List Nat :=
  let padded := sha256pad msg
  ((chunks64 (padded.length / 64) padded).foldl compressBlock shaH0).flatMap
    (fun x => beBytes 4 x)

/-- Lowercase hex rendering of one value below 16. -/
def hexDigit (n : Nat) : Char := "0123456789abcdef".toList.getD (n % 16) '0'

/-- Model of `hashlib.sha256(s.encode()).hexdigest()`. -/
def sha256hex (s : String) : String :=
  String.mk ((sha256 (strBytes s)).flatMap
    (fun b => [hexDigit (b / 16), hexDigit (b % 16)]))

/-- One row of the `passwords` table, exactly the columns filled in by the
INSERT of `_save_password` (the remaining columns — timestamps, usage
counter, notes, category — are sqlite defaults carrying no password data and
are omitted).  There is no plaintext column. -/
structure PasswordRecord where
  id : Int
  name : String
  password_hash : String
  salt : String
  complexity_score : Nat
  strength_rating : String
  total_length : Nat
  uppercase_count : Nat
  lowercase_count : Nat
  digit_count : Nat
  special_char_count : Nat
  entropy : ℚ
deriving DecidableEq

/-- One row of the `password_history` table as inserted by
`_save_password`. -/
structure HistoryEntry where
  password_id : Int
  action : String
deriving DecidableEq

/-- The persistent state of one vault: the two sqlite tables plus the log
lines written by `_save_password`. -/
structure VaultState where
  passwords : List PasswordRecord
  history : List HistoryEntry
  logs : List String
deriving DecidableEq

/-- The vault with empty tables, as created by `_init_database`. -/
def emptyVault : VaultState := ⟨[], [], []⟩

/-- The `passwords` row built by `_save_password` from the display name, the
plaintext (entering only through its salted hash), the salt, and the
analyzer metrics. -/
def recordFrom (pid : Int) (nm : String) (password : List Char) (salt : String)
    (d : PasswordDetails) : PasswordRecord :=
  { id := pid
    name := nm
    password_hash := sha256hex (String.mk password ++ salt)
    salt := salt
    complexity_score := d.complexity_score
    strength_rating := d.strength_rating
    total_length := d.total_length
    uppercase_count := d.uppercase_count
    lowercase_count := d.lowercase_count
    digit_count := d.digit_count
    special_char_count := d.special_char_count
    entropy := d.entropy }

/-- The log line of a successful `_save_password`. -/
def saveOkLog (nm : String) (pid : Int) : String :=
  "Password " ++ nm ++ " disimpan dengan ID " ++ toString pid

/-- The log line of the `except sqlite3.Error` branch of `_save_password`. -/
def saveErrLog : String := "Kesalahan menyimpan password"

/-- Model of `_save_password`.  The salt (`secrets.token_hex(16)`) is
supplied by the oracle; `fails` says whether the sqlite transaction raises
`sqlite3.Error`.  On failure the `with`-connection rolls back, the error is
logged and `-1` is returned; on success the record and a `'generated'`
history row are committed and `lastrowid` (row count + 1 on a fresh
AUTOINCREMENT table) is returned. -/
def save_password (nm : String) (password : List Char) (d : PasswordDetails)
    (salt : String) (fails : Bool) (st : VaultState) : Int × VaultState :=
  let password_hash := sha256hex (String.mk password ++ salt)
  if fails then
    (-1, { st with logs := st.logs ++ [saveErrLog] })
  else
    let pid : Int := (st.passwords.length : Int) + 1
    (pid,
     { passwords := st.passwords ++
         [{ id := pid, name := nm, password_hash := password_hash, salt := salt,
            complexity_score := d.complexity_score,
            strength_rating := d.strength_rating,
            total_length := d.total_length,
            uppercase_count := d.uppercase_count,
            lowercase_count := d.lowercase_count,
            digit_count := d.digit_count,
            special_char_count := d.special_char_count,
            entropy := d.entropy }],
       history := st.history ++ [{ password_id := pid, action := "generated" }],
       logs := st.logs ++ [saveOkLog nm pid] })

/-- One element of the list returned by `generate_passwords`. -/
structure GenItem where
  id : Int
  name : String
  password : List Char
  details : PasswordDetails
deriving DecidableEq

/-- The randomness and failure oracle for one call of `generate_passwords`:
per-iteration `secrets.randbelow` draw, per-iteration and per-position
`secrets.choice` draws for the four alphabets, the per-iteration
`SystemRandom().shuffle` as an arbitrary reordering function, the salt from
`secrets.token_hex(16)`, and whether the i-th `_save_password` transaction
raises `sqlite3.Error`. -/
structure Oracle where
  lenDraw : Nat → Nat
  upPick : Nat → Nat → Nat
  lowPick : Nat → Nat → Nat
  digPick : Nat → Nat → Nat
  specPick : Nat → Nat → Nat
  shuffle : Nat → List Char → List Char
  saltHex : Nat → String
  saveFails : Nat → Bool

/-- The contract of `SystemRandom().shuffle`: it reorders its input. -/
def ShufflePerm (o : Oracle) : Prop :=
  ∀ i l, List.Perm (o.shuffle i l) l

/-- Model of `secrets.choice(alphabet)`: a uniform pick, parameterised by an
oracle index reduced into the alphabet. -/
def secretsChoice (alphabet : List Char) (k : Nat) : Char :=
  alphabet.getD (k % alphabet.length) ' '

/-- The list comprehension `[secrets.choice(alphabet) for _ in range(n)]`. -/
def pickMany (alphabet : List Char) (pick : Nat → Nat) (n : Nat) : List Char :=
  (List.range n).map (fun j => secretsChoice alphabet (pick j))

/-- The concatenated `password_chars` list of iteration `i` before the
shuffle: the four class quotas drawn from their alphabets (Python's
`range(n)` is empty for `n ≤ 0`, hence `Int.toNat`). -/
def baseChars (cfg : ComplexityConfig) (o : Oracle) (i : Nat)
    (length : Int) : List Char :=
  pickMany ascii_uppercase (o.upPick i) (ucOf cfg length).toNat ++
  pickMany ascii_lowercase (o.lowPick i) (lcOf cfg length).toNat ++
  pickMany digits (o.digPick i) (dcOf cfg length).toNat ++
  pickMany punctuation (o.specPick i) (scOf cfg length).toNat

/-- The password of iteration `i`: `password_chars` after the secure
shuffle (`''.join` keeps the character sequence). -/
def buildPassword (cfg : ComplexityConfig) (o : Oracle) (i : Nat)
    (length : Int) : List Char :=
  o.shuffle i (baseChars cfg o i length)

/-- The resolved target length of iteration `i`:
`secrets.randbelow(max_length - min_length + 1) + min_length` in the
non-raising case. -/
def lengthSpec (min_length max_length : Int) (o : Oracle) (i : Nat) : Int :=
  ((o.lenDraw i % (max_length - min_length + 1).toNat : Nat) : Int) + min_length

/-- The `for i in range(num_passwords)` loop of `generate_passwords`:
draw a length, build and shuffle the password, analyze it, save it, and
append the result dictionary.  An uncaught exception (`ValueError` from
`randbelow`, `ZeroDivisionError` from the analyzer) aborts the loop and
propagates, leaving the already-committed vault state in place. -/
def generate_passwords_loop (cfg : ComplexityConfig)
    (min_length max_length : Int) (o : Oracle) :
    Nat → Nat → List GenItem → VaultState →
    Except PyError (List GenItem) × VaultState
  | 0, _, acc, st => (.ok acc, st)
  | rem + 1, i, acc, st =>
    match pyRandbelow (max_length - min_length + 1) (o.lenDraw i) with
    | .error e => (.error e, st)
    | .ok r =>
      let length := r + min_length
      let password := buildPassword cfg o i length
      match analyze_password password with
      | .error e => (.error e, st)
      | .ok details =>
        let nm := "Generated-" ++ toString (i + 1)
        let res := save_password nm password details (o.saltHex i)
          (o.saveFails i) st
        generate_passwords_loop cfg min_length max_length o rem (i + 1)
          (acc ++ [{ id := res.1, name := nm, password := password,
                     details := details }]) res.2

/-- Model of `generate_passwords(num_passwords, min_length, max_length,
complexity)` on a vault in state `st` with randomness oracle `o`: the
returned list (or the escaping exception) together with the final vault
state. -/
def generate_passwords (num_passwords : Nat) (min_length max_length : Int)
    (complexity : String) (o : Oracle) (st : VaultState) :
    Except PyError (List GenItem) × VaultState :=
  generate_passwords_loop (currentConfig complexity) min_length max_length o
    num_passwords 0 [] st

/-- Model of the data `export_vault` reads: `SELECT * FROM passwords`
(the serialization to JSON/CSV files is out of scope; the exported rows are
exactly the stored records). -/
def export_vault (st : VaultState) : List PasswordRecord := st.passwords

/-- Everything one batch produces beyond the initial state, computed
without the exception plumbing: the returned items and the rows and log
lines appended by the saves.  `base` is the number of `passwords` rows
already committed (it determines `lastrowid`). -/
structure BatchOut where
  items : List GenItem
  records : List PasswordRecord
  hist : List HistoryEntry
  logs : List String
deriving DecidableEq

/-- Closed form of the loop on valid inputs (proved equal to
`generate_passwords_loop` in `generate_passwords_loop_spec`). -/
def batchSpec (cfg : ComplexityConfig) (min_length max_length : Int)
    (o : Oracle) : Nat → Nat → Nat → BatchOut
  | 0, _, _ => ⟨[], [], [], []⟩
  | rem + 1, i, base =>
    let password := buildPassword cfg o i (lengthSpec min_length max_length o i)
    let d := analyzeDetails password
    let nm := "Generated-" ++ toString (i + 1)
    if o.saveFails i then
      let rest := batchSpec cfg min_length max_length o rem (i + 1) base
      ⟨{ id := -1, name := nm, password := password, details := d } :: rest.items,
       rest.records, rest.hist, saveErrLog :: rest.logs⟩
    else
      let pid : Int := (base : Int) + 1
      let rest := batchSpec cfg min_length max_length o rem (i + 1) (base + 1)
      ⟨{ id := pid, name := nm, password := password, details := d } :: rest.items,
       recordFrom pid nm password (o.saltHex i) d :: rest.records,
       { password_id := pid, action := "generated" } :: rest.hist,
       saveOkLog nm pid :: rest.logs⟩

/-- Validity of a profile's quota arithmetic: on positive lengths the three
truncated class counts are non-negative and leave a non-negative remainder
for the special class.  All three profiles (and hence the fallback) satisfy
it — see `cfgOK_currentConfig`. -/
def CfgOK (cfg : ComplexityConfig) : Prop :=
  ∀ l : Int, 1 ≤ l →
    0 ≤ ucOf cfg l ∧ 0 ≤ lcOf cfg l ∧ 0 ≤ dcOf cfg l ∧
    ucOf cfg l + lcOf cfg l + dcOf cfg l ≤ l

/-- Shape of every row `_save_password` can commit: name, salted hash,
salt, and the analyzer metrics of some plaintext — nothing else, and in
particular no plaintext column. -/
def StoredShape (r : PasswordRecord) : Prop :=
  ∃ pid nm pw salt d,
    analyze_password pw = .ok d ∧ r = recordFrom pid nm pw salt d

/-- Shape of every log line `_save_password` can write: the fixed error
line or the success line built from the display name and the row id. -/
def LogShape (m : String) : Prop :=
  m = saveErrLog ∨ ∃ nm pid, m = saveOkLog nm pid

/-- An oracle with all-zero draws, the identity shuffle, a fixed 32-hex-char
salt and no storage failures, for concrete witnesses. -/
def oracleZero : Oracle :=
  { lenDraw := fun _ => 0
    upPick := fun _ _ => 0
    lowPick := fun _ _ => 0
    digPick := fun _ _ => 0
    specPick := fun _ _ => 0
    shuffle := fun _ l => l
    saltHex := fun _ => "00112233445566778899aabbccddeeff"
    saveFails := fun _ => false }

/-- Like `oracleZero` but the first `_save_password` raises
`sqlite3.Error`. -/
def oracleFailFirst : Oracle :=
  { oracleZero with saveFails := fun i => i = 0 }

/-- Like `oracleZero` but the length draw is 3. -/
def oracleDraw3 : Oracle :=
  { oracleZero with lenDraw := fun _ => 3 }

/-- Errors of the spec's store-lookup operations. -/
inductive LookupError where
  | recordNotFoundError
deriving DecidableEq

/-- Modelled from the spec: the source file defines no `VerifyPassword`
operation (the claim cites only the hash computation of `_save_password`),
so this definition follows the spec's words — recompute
`SHA-256(candidate ‖ storedSalt)` for the record, compare with the stored
hash, return the boolean, and fail with `RecordNotFoundError` when the
identifier does not exist. -/
def verify_password (st : VaultState) (pid : Int) (candidate : String) :
    Except LookupError Bool :=
  match st.passwords.find? (fun r => r.id == pid) with
  | none => .error .recordNotFoundError
  | some r => .ok (sha256hex (candidate ++ r.salt) == r.password_hash)

/-- How many of the analyzer's four class predicates hold for one
character. -/
def classFlags (c : Char) : Nat :=
  (if c.isUpper then 1 else 0) + (if c.isLower then 1 else 0) +
  (if c.isDigit then 1 else 0) + (if c ∈ punctuation then 1 else 0)

/-- Sanity check of the SHA-256 embedding against the FIPS 180 test vector
(`hashlib.sha256(b"abc").hexdigest()` returns the same string). -/
theorem sha256hex_abc :
    sha256hex "abc" =
      "ba7816bf8f01cfea414140de5dae2223b00361a396177a9cb410ff61f20015ad" := by
  rfl

/-- On non-negative rationals, Python truncation is the floor. -/
theorem pyTrunc_eq_floor (q : ℚ) (h : 0 ≤ q) : pyTrunc q = ⌊q⌋ := by
  rw [pyTrunc, if_pos h, Rat.floor_def]

/-- Truncation of a non-negative rational is non-negative. -/
theorem pyTrunc_nonneg (q : ℚ) (h : 0 ≤ q) : 0 ≤ pyTrunc q := by
  rw [pyTrunc_eq_floor q h]
  exact Int.floor_nonneg.mpr h

/-- Truncation of a non-negative rational is below the rational. -/
theorem pyTrunc_le (q : ℚ) (h : 0 ≤ q) : (pyTrunc q : ℚ) ≤ q := by
  rw [pyTrunc_eq_floor q h]
  exact Int.floor_le q

/-- The four class quotas always sum to the target length: the special
class is defined as the remainder. -/
theorem quota_sum (cfg : ComplexityConfig) (l : Int) :
    ucOf cfg l + lcOf cfg l + dcOf cfg l + scOf cfg l = l := by
  unfold scOf
  ring

/-- A profile with non-negative ratios whose first three ratios sum to at
most one has valid quota arithmetic. -/
theorem cfgOK_of (cfg : ComplexityConfig) (h1 : 0 ≤ cfg.r_upper)
    (h2 : 0 ≤ cfg.r_lower) (h3 : 0 ≤ cfg.r_digit)
    (hsum : cfg.r_upper + cfg.r_lower + cfg.r_digit ≤ 1) : CfgOK cfg := by
  intro l hl
  have hl0 : (0 : ℚ) ≤ (l : ℚ) := by exact_mod_cast le_trans zero_le_one hl
  have hu : (0 : ℚ) ≤ (l : ℚ) * cfg.r_upper := mul_nonneg hl0 h1
  have hlo : (0 : ℚ) ≤ (l : ℚ) * cfg.r_lower := mul_nonneg hl0 h2
  have hd : (0 : ℚ) ≤ (l : ℚ) * cfg.r_digit := mul_nonneg hl0 h3
  refine ⟨pyTrunc_nonneg _ hu, pyTrunc_nonneg _ hlo, pyTrunc_nonneg _ hd, ?_⟩
  have hle : ((ucOf cfg l : ℚ) + (lcOf cfg l : ℚ) + (dcOf cfg l : ℚ)) ≤
      (l : ℚ) * cfg.r_upper + (l : ℚ) * cfg.r_lower + (l : ℚ) * cfg.r_digit :=
    add_le_add (add_le_add (pyTrunc_le _ hu) (pyTrunc_le _ hlo)) (pyTrunc_le _ hd)
  have hle2 : (l : ℚ) * cfg.r_upper + (l : ℚ) * cfg.r_lower +
      (l : ℚ) * cfg.r_digit ≤ (l : ℚ) := by
    calc (l : ℚ) * cfg.r_upper + (l : ℚ) * cfg.r_lower + (l : ℚ) * cfg.r_digit
        = (l : ℚ) * (cfg.r_upper + cfg.r_lower + cfg.r_digit) := by ring
      _ ≤ (l : ℚ) * 1 := mul_le_mul_of_nonneg_left hsum hl0
      _ = (l : ℚ) := mul_one _
  have : ((ucOf cfg l + lcOf cfg l + dcOf cfg l : Int) : ℚ) ≤ (l : ℚ) := by
    push_cast
    exact le_trans hle hle2
  exact_mod_cast this

/-- The `'low'` profile has valid quota arithmetic. -/
theorem cfgOK_low : CfgOK lowConfig :=
  cfgOK_of _ (by norm_num [lowConfig]) (by norm_num [lowConfig])
    (by norm_num [lowConfig]) (by norm_num [lowConfig])

/-- The `'balanced'` profile has valid quota arithmetic. -/
theorem cfgOK_balanced : CfgOK balancedConfig :=
  cfgOK_of _ (by norm_num [balancedConfig]) (by norm_num [balancedConfig])
    (by norm_num [balancedConfig]) (by norm_num [balancedConfig])

/-- The `'high'` profile has valid quota arithmetic. -/
theorem cfgOK_high : CfgOK highConfig :=
  cfgOK_of _ (by norm_num [highConfig]) (by norm_num [highConfig])
    (by norm_num [highConfig]) (by norm_num [highConfig])

/-- Whatever profile string is passed, the configuration actually used
(including the silent fallback) has valid quota arithmetic. -/
theorem cfgOK_currentConfig (c : String) : CfgOK (currentConfig c) := by
  unfold currentConfig complexity_config
  split_ifs <;> simp only [Option.getD_some, Option.getD_none] <;>
    first
      | exact cfgOK_low
      | exact cfgOK_balanced
      | exact cfgOK_high

/-- `pickMany` draws exactly the requested number of characters. -/
theorem pickMany_length (a : List Char) (p : Nat → Nat) (n : Nat) :
    (pickMany a p n).length = n := by
  simp [pickMany]

/-- A `secrets.choice` pick from a non-empty alphabet lies in the
alphabet. -/
theorem secretsChoice_mem (a : List Char) (ha : a ≠ []) (k : Nat) :
    secretsChoice a k ∈ a := by
  unfold secretsChoice
  have hlt : k % a.length < a.length := Nat.mod_lt _ (List.length_pos.mpr ha)
  rw [List.getD_eq_getElem?_getD, List.getElem?_eq_getElem hlt]
  exact List.getElem_mem hlt

/-- Every `pickMany` character lies in its alphabet. -/
theorem mem_pickMany (a : List Char) (ha : a ≠ []) (p : Nat → Nat) (n : Nat)
    (c : Char) (hc : c ∈ pickMany a p n) : c ∈ a := by
  simp only [pickMany, List.mem_map, List.mem_range] at hc
  obtain ⟨j, _, rfl⟩ := hc
  exact secretsChoice_mem a ha (p j)

/-- Every character of the four generator alphabets satisfies exactly one
of the analyzer's four class predicates. -/
theorem classFlags_one :
    ∀ c ∈ ascii_uppercase ++ ascii_lowercase ++ digits ++ punctuation,
      classFlags c = 1 := by
  decide

/-- Summing the four class counts of a list whose characters each satisfy
exactly one class predicate gives the list's length. -/
theorem countP_four (l : List Char) (h : ∀ c ∈ l, classFlags c = 1) :
    l.countP (fun c => c.isUpper) + l.countP (fun c => c.isLower) +
    l.countP (fun c => c.isDigit) +
    l.countP (fun c => decide (c ∈ punctuation)) = l.length := by
  induction l with
  | nil => simp
  | cons a t ih =>
    have ha := h a (List.mem_cons_self a t)
    have ht := ih (fun c hc => h c (List.mem_cons_of_mem a hc))
    simp only [List.countP_cons, List.length_cons]
    simp only [classFlags] at ha
    by_cases h1 : a.isUpper <;> by_cases h2 : a.isLower <;>
      by_cases h3 : a.isDigit <;> by_cases h4 : a ∈ punctuation <;>
      simp [h1, h2, h3, h4] at ha ⊢ <;> omega

/-- Every character of an unshuffled `password_chars` list comes from one
of the four alphabets. -/
theorem baseChars_mem (cfg : ComplexityConfig) (o : Oracle) (i : Nat)
    (l : Int) (c : Char) (hc : c ∈ baseChars cfg o i l) :
    c ∈ ascii_uppercase ++ ascii_lowercase ++ digits ++ punctuation := by
  simp only [baseChars, List.mem_append] at hc
  simp only [List.mem_append]
  rcases hc with ((h | h) | h) | h
  · exact Or.inl (Or.inl (Or.inl (mem_pickMany _ (by decide) _ _ _ h)))
  · exact Or.inl (Or.inl (Or.inr (mem_pickMany _ (by decide) _ _ _ h)))
  · exact Or.inl (Or.inr (mem_pickMany _ (by decide) _ _ _ h))
  · exact Or.inr (mem_pickMany _ (by decide) _ _ _ h)

/-- Length of the unshuffled `password_chars` list: on a valid profile and
a positive target length it is exactly the target length. -/
theorem baseChars_length (cfg : ComplexityConfig) (o : Oracle) (i : Nat)
    (l : Int) (hcfg : CfgOK cfg) (hl : 1 ≤ l) :
    (baseChars cfg o i l).length = l.toNat := by
  obtain ⟨h1, h2, h3, h4⟩ := hcfg l hl
  have hq := quota_sum cfg l
  simp only [baseChars, List.length_append, pickMany_length]
  omega

/-- Length of the shuffled password. -/
theorem buildPassword_length (cfg : ComplexityConfig) (o : Oracle)
    (hsh : ShufflePerm o) (i : Nat) (l : Int) (hcfg : CfgOK cfg) (hl : 1 ≤ l) :
    (buildPassword cfg o i l).length = l.toNat := by
  rw [buildPassword, (hsh i (baseChars cfg o i l)).length_eq]
  exact baseChars_length cfg o i l hcfg hl

/-- The resolved target length lies in the inclusive range
`[min_length, max_length]` whenever the range is non-empty. -/
theorem lengthSpec_bounds (min_length max_length : Int)
    (hmm : min_length ≤ max_length) (o : Oracle) (i : Nat) :
    min_length ≤ lengthSpec min_length max_length o i ∧
    lengthSpec min_length max_length o i ≤ max_length := by
  unfold lengthSpec
  have hpos : 0 < (max_length - min_length + 1).toNat := by omega
  have h := Nat.mod_lt (o.lenDraw i) hpos
  omega

/-- Projection facts of `analyzeDetails`, stated once for reuse. -/
theorem analyzeDetails_counts (p : List Char) :
    (analyzeDetails p).total_length = p.length ∧
    (analyzeDetails p).uppercase_count = p.countP (fun c => c.isUpper) ∧
    (analyzeDetails p).lowercase_count = p.countP (fun c => c.isLower) ∧
    (analyzeDetails p).digit_count = p.countP (fun c => c.isDigit) ∧
    (analyzeDetails p).special_char_count =
      p.countP (fun c => decide (c ∈ punctuation)) ∧
    (analyzeDetails p).entropy =
      (p.length : ℚ) * ((p.toFinset.card : ℚ) / (p.length : ℚ)) ^ 2 ∧
    (analyzeDetails p).strength_rating =
      ratingOfScore (analyzeDetails p).complexity_score :=
  ⟨rfl, rfl, rfl, rfl, rfl, rfl, rfl⟩

/-- The analyzer succeeds exactly on non-empty inputs, returning the
details record. -/
theorem analyze_password_ok (p : List Char) (hp : p ≠ []) :
    analyze_password p = .ok (analyzeDetails p) := by
  rw [analyze_password, if_neg (by simpa using hp)]

/-- Closed form of the generation loop: with a non-empty positive length
range, a permuting shuffle and a valid profile no exception is raised, and
the returned items and the appended table rows and log lines are exactly
those of `batchSpec`. -/
theorem generate_passwords_loop_spec (cfg : ComplexityConfig)
    (min_length max_length : Int) (o : Oracle)
    (hmin : 1 ≤ min_length) (hmm : min_length ≤ max_length)
    (hcfg : CfgOK cfg) (hsh : ShufflePerm o) :
    ∀ (rem i : Nat) (acc : List GenItem) (st : VaultState),
      generate_passwords_loop cfg min_length max_length o rem i acc st =
        (.ok (acc ++
          (batchSpec cfg min_length max_length o rem i st.passwords.length).items),
         { passwords := st.passwords ++
             (batchSpec cfg min_length max_length o rem i st.passwords.length).records,
           history := st.history ++
             (batchSpec cfg min_length max_length o rem i st.passwords.length).hist,
           logs := st.logs ++
             (batchSpec cfg min_length max_length o rem i st.passwords.length).logs }) := by
  intro rem
  induction rem with
  | zero =>
    intro i acc st
    simp [generate_passwords_loop, batchSpec]
  | succ n ih =>
    intro i acc st
    have hb := lengthSpec_bounds min_length max_length hmm o i
    have hlen1 : 1 ≤ lengthSpec min_length max_length o i := le_trans hmin hb.1
    have hpwlen := buildPassword_length cfg o hsh i
      (lengthSpec min_length max_length o i) hcfg hlen1
    have hpw : buildPassword cfg o i (lengthSpec min_length max_length o i) ≠ [] := by
      intro hnil
      rw [hnil] at hpwlen
      simp only [List.length_nil] at hpwlen
      omega
    have hrb : pyRandbelow (max_length - min_length + 1) (o.lenDraw i) =
        .ok (lengthSpec min_length max_length o i - min_length) := by
      rw [pyRandbelow, if_neg (by omega)]
      unfold lengthSpec
      congr 1
      omega
    rw [generate_passwords_loop, hrb]
    dsimp only
    rw [show lengthSpec min_length max_length o i - min_length + min_length
          = lengthSpec min_length max_length o i from by ring]
    rw [analyze_password_ok _ hpw]
    dsimp only
    by_cases hf : o.saveFails i
    · rw [save_password, if_pos hf]
      rw [ih (i + 1) _ _]
      rw [batchSpec, if_pos hf]
      simp [List.append_assoc]
    · rw [save_password, if_neg hf]
      rw [ih (i + 1) _ _]
      rw [batchSpec, if_neg hf]
      simp [recordFrom, List.append_assoc]

/-- The batch returns exactly one item per requested password. -/
theorem batchSpec_items_length (cfg : ComplexityConfig)
    (min_length max_length : Int) (o : Oracle) :
    ∀ rem i base,
      (batchSpec cfg min_length max_length o rem i base).items.length = rem := by
  intro rem
  induction rem with
  | zero => intro i base; rfl
  | succ n ih =>
    intro i base
    rw [batchSpec]
    by_cases hf : o.saveFails i <;> simp [hf, ih]

/-- Per-item characterization of the batch output: the k-th item carries
the deterministic name, the generated password of iteration `i + k`, the
analyzer details of that password, and the id `-1` exactly when its save
failed (a successful save returns a positive `lastrowid`). -/
theorem batchSpec_items_get (cfg : ComplexityConfig)
    (min_length max_length : Int) (o : Oracle) :
    ∀ (rem i base k : Nat) (it : GenItem),
      (batchSpec cfg min_length max_length o rem i base).items[k]? = some it →
      it.name = "Generated-" ++ toString (i + k + 1) ∧
      it.password =
        buildPassword cfg o (i + k) (lengthSpec min_length max_length o (i + k)) ∧
      it.details = analyzeDetails it.password ∧
      (it.id = -1 ↔ o.saveFails (i + k) = true) ∧
      (o.saveFails (i + k) = false → 1 ≤ it.id) := by
  intro rem
  induction rem with
  | zero =>
    intro i base k it h
    simp [batchSpec] at h
  | succ n ih =>
    intro i base k it h
    rw [batchSpec] at h
    by_cases hf : o.saveFails i
    · simp only [hf] at h
      simp only [if_true] at h
      cases k with
      | zero =>
        simp only [List.getElem?_cons_zero, Option.some_inj] at h
        subst h
        simp [hf]
      | succ m =>
        simp only [List.getElem?_cons_succ] at h
        have hres := ih (i + 1) base m it h
        have heq : i + 1 + m = i + (m + 1) := by omega
        rw [heq] at hres
        exact hres
    · simp only [Bool.not_eq_true] at hf
      simp [hf] at h
      cases k with
      | zero =>
        simp only [List.getElem?_cons_zero, Option.some_inj] at h
        subst h
        refine ⟨rfl, rfl, rfl, ?_, ?_⟩
        · constructor
          · intro habs
            have hb : (base : Int) + 1 = -1 := habs
            omega
          · intro habs
            have hi : i + 0 = i := by omega
            rw [hi] at habs
            rw [hf] at habs
            exact absurd habs (by simp)
        · intro _
          show (1 : Int) ≤ (base : Int) + 1
          omega
      | succ m =>
        simp only [List.getElem?_cons_succ] at h
        have hres := ih (i + 1) (base + 1) m it h
        have heq : i + 1 + m = i + (m + 1) := by omega
        rw [heq] at hres
        exact hres

/-- The number of rows the batch commits is the number of iterations whose
save does not fail. -/
theorem batchSpec_records_length (cfg : ComplexityConfig)
    (min_length max_length : Int) (o : Oracle) :
    ∀ rem i base,
      (batchSpec cfg min_length max_length o rem i base).records.length =
        (List.range rem).countP (fun k => !o.saveFails (i + k)) := by
  intro rem
  induction rem with
  | zero => intro i base; rfl
  | succ n ih =>
    intro i base
    rw [batchSpec, List.range_succ_eq_map]
    have hmap : (List.countP (fun k => !o.saveFails (i + k))
        ((List.range n).map Nat.succ)) =
        List.countP (fun k => !o.saveFails (i + 1 + k)) (List.range n) := by
      rw [List.countP_map]
      apply List.countP_congr
      intro k _
      simp only [Function.comp]
      have hik : i + Nat.succ k = i + 1 + k := by omega
      rw [hik]
    by_cases hf : o.saveFails i
    · simp [hf, ih, List.countP_cons, hmap]
    · simp [hf, ih, List.countP_cons, hmap]

/-- `_save_password` preserves the shape invariants of the store: it can
only append a `recordFrom` row (built from name, salted hash, salt and the
metrics of an analyzable plaintext) and one of the two fixed-format log
lines. -/
theorem save_password_stored (nm : String) (password : List Char)
    (d : PasswordDetails) (salt : String) (fails : Bool) (st : VaultState)
    (hr : ∀ r ∈ st.passwords, StoredShape r)
    (hl : ∀ m ∈ st.logs, LogShape m)
    (hd : analyze_password password = .ok d) :
    (∀ r ∈ (save_password nm password d salt fails st).2.passwords,
        StoredShape r) ∧
    (∀ m ∈ (save_password nm password d salt fails st).2.logs, LogShape m) := by
  unfold save_password
  by_cases hf : fails
  · subst hf
    rw [if_pos rfl]
    dsimp only
    refine ⟨hr, ?_⟩
    intro m hm
    simp only [List.mem_append, List.mem_singleton] at hm
    rcases hm with hm | hm
    · exact hl m hm
    · exact Or.inl hm
  · simp only [Bool.not_eq_true] at hf
    subst hf
    rw [if_neg (by simp)]
    dsimp only
    constructor
    · intro r hrr
      simp only [List.mem_append, List.mem_singleton] at hrr
      rcases hrr with hrr | hrr
      · exact hr r hrr
      · exact ⟨(st.passwords.length : Int) + 1, nm, password, salt, d, hd, hrr⟩
    · intro m hm
      simp only [List.mem_append, List.mem_singleton] at hm
      rcases hm with hm | hm
      · exact hl m hm
      · exact Or.inr ⟨nm, (st.passwords.length : Int) + 1, hm⟩

/-- The generation loop preserves the store/log shape invariants on every
path, including the exceptional ones (an escaping exception leaves the
already-committed state in place). -/
theorem generate_passwords_loop_stored (cfg : ComplexityConfig)
    (min_length max_length : Int) (o : Oracle) :
    ∀ (rem i : Nat) (acc : List GenItem) (st : VaultState),
      (∀ r ∈ st.passwords, StoredShape r) →
      (∀ m ∈ st.logs, LogShape m) →
      (∀ r ∈ (generate_passwords_loop cfg min_length max_length o
          rem i acc st).2.passwords, StoredShape r) ∧
      (∀ m ∈ (generate_passwords_loop cfg min_length max_length o
          rem i acc st).2.logs, LogShape m) := by
  intro rem
  induction rem with
  | zero =>
    intro i acc st hr hl
    exact ⟨hr, hl⟩
  | succ n ih =>
    intro i acc st hr hl
    rw [generate_passwords_loop]
    cases hrb : pyRandbelow (max_length - min_length + 1) (o.lenDraw i) with
    | error e => exact ⟨hr, hl⟩
    | ok r =>
      dsimp only
      cases han : analyze_password (buildPassword cfg o i (r + min_length)) with
      | error e => exact ⟨hr, hl⟩
      | ok details =>
        dsimp only
        have hsaved := save_password_stored ("Generated-" ++ toString (i + 1))
          (buildPassword cfg o i (r + min_length)) details (o.saltHex i)
          (o.saveFails i) st hr hl han
        exact ih (i + 1) _ _ hsaved.1 hsaved.2

/-- C1 counterexample: a batch with the unknown profile identifier
"futuristic" does not fail at all — it succeeds, and the whole run is
identical to the run with the "balanced" profile, because
`complexity_config.get(complexity, complexity_config['balanced'])` silently
falls back (the source defines no UnknownProfileError). -/
theorem unknown_profile_run_succeeds :
    (generate_passwords 1 12 24 "futuristic" oracleZero emptyVault).1.isOk
      = true ∧
    generate_passwords 1 12 24 "futuristic" oracleZero emptyVault =
      generate_passwords 1 12 24 "balanced" oracleZero emptyVault := by
  constructor
  · with_unfolding_all rfl
  · rfl

/-- C1 (amended): a profile identifier outside the enumerated set
\x7blow, balanced, high\x7d does not make the generator fail; the dictionary
lookup silently falls back to the `'balanced'` profile, so the whole call
behaves exactly like a call with `'balanced'`. -/
theorem unknown_profile_falls_back_to_balanced (complexity : String)
    (h : complexity_config complexity = none) (num : Nat)
    (min_length max_length : Int) (o : Oracle) (st : VaultState) :
    generate_passwords num min_length max_length complexity o st =
      generate_passwords num min_length max_length "balanced" o st := by
  unfold generate_passwords currentConfig
  rw [h]
  rfl

/-- Witness for `unknown_profile_falls_back_to_balanced` at the concrete
unknown identifier "futuristic". -/
theorem unknown_profile_falls_back_witness :
    generate_passwords 3 12 24 "futuristic" oracleZero emptyVault =
      generate_passwords 3 12 24 "balanced" oracleZero emptyVault :=
  unknown_profile_falls_back_to_balanced "futuristic" (by rfl) 3 12 24
    oracleZero emptyVault

/-- C3 counterexample: on the empty string the analyzer raises the
unhandled `ZeroDivisionError` coming from the entropy division — the source
defines no `EmptyPasswordError` exception class at all. -/
theorem analyze_empty_zero_division :
    analyze_password [] = .error .zeroDivisionError := by
  rfl

/-- C3 (amended): the analyzer fails exactly on the empty string, but with
an unhandled `ZeroDivisionError` (division by zero in the entropy formula)
rather than a dedicated `EmptyPasswordError`; on every non-empty character
sequence it returns the metrics record. -/
theorem analyze_ok_iff_nonempty (p : List Char) :
    (p = [] → analyze_password p = .error .zeroDivisionError) ∧
    (p ≠ [] → analyze_password p = .ok (analyzeDetails p)) := by
  constructor
  · intro hp
    subst hp
    rfl
  · intro hp
    exact analyze_password_ok p hp

/-- Witness for `analyze_ok_iff_nonempty` at the empty input and at a
concrete one-character input. -/
theorem analyze_ok_iff_nonempty_witness :
    analyze_password [] = .error .zeroDivisionError ∧
    analyze_password ['a'] = .ok (analyzeDetails ['a']) :=
  ⟨(analyze_ok_iff_nonempty []).1 rfl,
   (analyze_ok_iff_nonempty ['a']).2 (by decide)⟩

/-- C4 counterexample: with a non-positive minimum bound
(`min_length = 0`) the generator performs no validation and the run
succeeds — no `InvalidRangeError` (which the source never defines) and no
other failure is raised. -/
theorem nonpositive_bound_run_succeeds :
    (generate_passwords 1 0 5 "balanced" oracleDraw3 emptyVault).1.isOk
      = true := by
  with_unfolding_all rfl

/-- C4 (amended): the generator validates nothing itself.  When
`min_length > max_length` the very first `secrets.randbelow` call receives a
non-positive bound and raises `ValueError` (not an `InvalidRangeError`),
before anything is drawn or stored — the vault state is returned
unchanged.  Non-positive bounds with `min_length ≤ max_length` are not
rejected at all (see the counterexample). -/
theorem inverted_range_value_error (num : Nat) (min_length max_length : Int)
    (complexity : String) (o : Oracle) (st : VaultState)
    (hnum : 1 ≤ num) (h : max_length < min_length) :
    (generate_passwords num min_length max_length complexity o st).1 =
      .error .valueError ∧
    (generate_passwords num min_length max_length complexity o st).2 = st := by
  obtain ⟨n, rfl⟩ : ∃ n, num = n + 1 := ⟨num - 1, by omega⟩
  unfold generate_passwords
  rw [generate_passwords_loop]
  have hrb : pyRandbelow (max_length - min_length + 1) (o.lenDraw 0) =
      .error .valueError := by
    rw [pyRandbelow, if_pos (by omega)]
  rw [hrb]
  exact ⟨rfl, rfl⟩

/-- Witness for `inverted_range_value_error` at the concrete inverted range
`min_length = 5 > 2 = max_length`. -/
theorem inverted_range_value_error_witness :
    (generate_passwords 1 5 2 "balanced" oracleZero emptyVault).1 =
      .error .valueError ∧
    (generate_passwords 1 5 2 "balanced" oracleZero emptyVault).2 =
      emptyVault :=
  inverted_range_value_error 1 5 2 "balanced" oracleZero emptyVault
    (by decide) (by decide)

/-- C2 counterexample: in a batch of two where the first store write raises
`sqlite3.Error`, the call returns one single result list — there is no
separate aggregated error list.  The failed item sits in the same list as
the success, structurally identical to it (name, plaintext, full metrics)
and distinguishable only by the sentinel id `-1` that `_save_password`
returns from its `except` branch; only the second item is persisted. -/
theorem batch_failure_items_inline :
    (generate_passwords 2 1 1 "balanced" oracleFailFirst emptyVault).1 =
      .ok [{ id := -1, name := "Generated-1", password := ['!'],
             details := analyzeDetails ['!'] },
           { id := 1, name := "Generated-2", password := ['!'],
             details := analyzeDetails ['!'] }] ∧
    ((generate_passwords 2 1 1 "balanced" oracleFailFirst emptyVault).2.passwords.map
      (fun r => r.name)) = ["Generated-2"] := by
  constructor
  · with_unfolding_all rfl
  · with_unfolding_all rfl

/-- C2 (amended): when a store write fails for an item, the batch does
continue and completes for the remaining items, and nothing is persisted
for the failed item while the others are persisted; but the failure is not
reported in a separate aggregated error list — the failed item is returned
in the same single result list as the successes, marked only by the
sentinel id `-1` (successful items carry their positive row id). -/
theorem batch_continues_with_sentinel_ids (num : Nat)
    (min_length max_length : Int) (complexity : String) (o : Oracle)
    (st : VaultState) (hmin : 1 ≤ min_length) (hmm : min_length ≤ max_length)
    (hsh : ShufflePerm o) :
    ∃ items,
      (generate_passwords num min_length max_length complexity o st).1 =
        .ok items ∧
      items.length = num ∧
      (∀ (k : Nat) (it : GenItem), items[k]? = some it →
        (it.id = -1 ↔ o.saveFails k = true) ∧
        (o.saveFails k = false → 1 ≤ it.id)) ∧
      (generate_passwords num min_length max_length complexity o
          st).2.passwords.length =
        st.passwords.length +
          (List.range num).countP (fun k => !o.saveFails k) := by
  have hcfg := cfgOK_currentConfig complexity
  have hspec := generate_passwords_loop_spec (currentConfig complexity)
    min_length max_length o hmin hmm hcfg hsh num 0 [] st
  refine ⟨(batchSpec (currentConfig complexity) min_length max_length o num 0
    st.passwords.length).items, ?_, ?_, ?_, ?_⟩
  · unfold generate_passwords
    rw [hspec]
    dsimp only
    rw [List.nil_append]
  · exact batchSpec_items_length (currentConfig complexity)
      min_length max_length o num 0 st.passwords.length
  · intro k it hk
    have hfacts := batchSpec_items_get (currentConfig complexity)
      min_length max_length o num 0 st.passwords.length k it hk
    rw [Nat.zero_add] at hfacts
    exact ⟨hfacts.2.2.2.1, hfacts.2.2.2.2⟩
  · unfold generate_passwords
    rw [hspec]
    dsimp only
    rw [List.length_append, batchSpec_records_length]
    congr 1
    apply List.countP_congr
    intro k _
    simp only [Nat.zero_add]

/-- Witness for `batch_continues_with_sentinel_ids` on a concrete batch of
two with a failing first save. -/
theorem batch_continues_witness :
    ∃ items,
      (generate_passwords 2 1 1 "balanced" oracleFailFirst emptyVault).1 =
        .ok items ∧
      items.length = 2 ∧
      (∀ (k : Nat) (it : GenItem), items[k]? = some it →
        (it.id = -1 ↔ oracleFailFirst.saveFails k = true) ∧
        (oracleFailFirst.saveFails k = false → 1 ≤ it.id)) ∧
      (generate_passwords 2 1 1 "balanced" oracleFailFirst
          emptyVault).2.passwords.length =
        emptyVault.passwords.length +
          (List.range 2).countP (fun k => !oracleFailFirst.saveFails k) :=
  batch_continues_with_sentinel_ids 2 1 1 "balanced" oracleFailFirst
    emptyVault (by decide) (by decide) (fun _ l => List.Perm.refl l)

/-- C6: the analyzer's entropy metric equals
`length * (distinctCharacterCount / length)^2`; it is invariant under every
permutation of the password (it depends only on length and distinct-count),
and ranges from `1/length` (all characters identical) up to `length` (all
characters distinct). -/
theorem entropy_formula_properties (p : List Char) (hp : p ≠ []) :
    analyze_password p = .ok (analyzeDetails p) ∧
    (analyzeDetails p).entropy =
      (p.length : ℚ) * ((p.toFinset.card : ℚ) / (p.length : ℚ)) ^ 2 ∧
    (∀ q, List.Perm p q →
      (analyzeDetails q).entropy = (analyzeDetails p).entropy) ∧
    1 / (p.length : ℚ) ≤ (analyzeDetails p).entropy ∧
    (analyzeDetails p).entropy ≤ (p.length : ℚ) ∧
    ((∀ a ∈ p, ∀ b ∈ p, a = b) →
      (analyzeDetails p).entropy = 1 / (p.length : ℚ)) ∧
    (p.Nodup → (analyzeDetails p).entropy = (p.length : ℚ)) := by
  have hlpos : 0 < p.length := List.length_pos.mpr hp
  have hl0 : (0 : ℚ) < (p.length : ℚ) := by exact_mod_cast hlpos
  have hE : ∀ r : List Char, (analyzeDetails r).entropy =
      (r.length : ℚ) * ((r.toFinset.card : ℚ) / (r.length : ℚ)) ^ 2 :=
    fun r => rfl
  have hE2 : (analyzeDetails p).entropy =
      ((p.toFinset.card : ℚ)) ^ 2 / (p.length : ℚ) := by
    rw [hE]
    field_simp
    ring
  have hcard_le : (p.toFinset.card : ℚ) ≤ (p.length : ℚ) := by
    exact_mod_cast p.toFinset_card_le
  have hcard_pos : (1 : ℚ) ≤ (p.toFinset.card : ℚ) := by
    obtain ⟨a, ha⟩ := List.exists_mem_of_ne_nil p hp
    have hmem : a ∈ p.toFinset := List.mem_toFinset.mpr ha
    exact_mod_cast Finset.card_pos.mpr ⟨a, hmem⟩
  refine ⟨analyze_password_ok p hp, hE p, ?_, ?_, ?_, ?_, ?_⟩
  · intro q hq
    rw [hE q, hE p, ← hq.length_eq, ← List.toFinset_eq_of_perm p q hq]
  · rw [hE2]
    gcongr
    nlinarith [hcard_pos]
  · rw [hE2, div_le_iff₀ hl0]
    nlinarith [hcard_le, hcard_pos]
  · intro hall
    have hcard1 : p.toFinset.card = 1 := by
      obtain ⟨a, ha⟩ := List.exists_mem_of_ne_nil p hp
      rw [Finset.card_eq_one]
      exact ⟨a, Finset.eq_singleton_iff_unique_mem.mpr
        ⟨List.mem_toFinset.mpr ha,
         fun x hx => hall x (List.mem_toFinset.mp hx) a ha⟩⟩
    rw [hE2, hcard1]
    norm_num
  · intro hnodup
    have hcard : p.toFinset.card = p.length := List.toFinset_card_of_nodup hnodup
    rw [hE2, hcard]
    field_simp
    ring

/-- Witness for `entropy_formula_properties` at the concrete two-character
password "ab". -/
theorem entropy_formula_properties_witness :
    analyze_password ['a', 'b'] = .ok (analyzeDetails ['a', 'b']) ∧
    (analyzeDetails ['a', 'b']).entropy =
      ((['a', 'b'] : List Char).length : ℚ) *
        (((['a', 'b'] : List Char).toFinset.card : ℚ) /
          ((['a', 'b'] : List Char).length : ℚ)) ^ 2 ∧
    (∀ q, List.Perm ['a', 'b'] q →
      (analyzeDetails q).entropy = (analyzeDetails ['a', 'b']).entropy) ∧
    1 / ((['a', 'b'] : List Char).length : ℚ) ≤
      (analyzeDetails ['a', 'b']).entropy ∧
    (analyzeDetails ['a', 'b']).entropy ≤
      ((['a', 'b'] : List Char).length : ℚ) ∧
    ((∀ a ∈ (['a', 'b'] : List Char), ∀ b ∈ (['a', 'b'] : List Char), a = b) →
      (analyzeDetails ['a', 'b']).entropy =
        1 / ((['a', 'b'] : List Char).length : ℚ)) ∧
    ((['a', 'b'] : List Char).Nodup →
      (analyzeDetails ['a', 'b']).entropy =
        ((['a', 'b'] : List Char).length : ℚ)) :=
  entropy_formula_properties ['a', 'b'] (by decide)

/-- C7: for every profile and every target length, the four class-count
quotas sum exactly to the target length (the remainder after truncating the
uppercase/lowercase/digit quotas is assigned entirely to the special
class); and consequently, for every password the generator builds, the
analyzer's four character-class counts sum exactly to its total length. -/
theorem class_count_quota_sum :
    (∀ (cfg : ComplexityConfig) (l : Int),
      ucOf cfg l + lcOf cfg l + dcOf cfg l + scOf cfg l = l) ∧
    (∀ (cfg : ComplexityConfig) (o : Oracle), ShufflePerm o →
      ∀ (i : Nat) (l : Int),
        (analyzeDetails (buildPassword cfg o i l)).uppercase_count +
        (analyzeDetails (buildPassword cfg o i l)).lowercase_count +
        (analyzeDetails (buildPassword cfg o i l)).digit_count +
        (analyzeDetails (buildPassword cfg o i l)).special_char_count =
        (analyzeDetails (buildPassword cfg o i l)).total_length) := by
  constructor
  · exact quota_sum
  · intro cfg o hsh i l
    have hmem : ∀ c ∈ buildPassword cfg o i l, classFlags c = 1 := by
      intro c hc
      have hbase : c ∈ baseChars cfg o i l :=
        (hsh i (baseChars cfg o i l)).mem_iff.mp hc
      exact classFlags_one c (baseChars_mem cfg o i l c hbase)
    exact countP_four (buildPassword cfg o i l) hmem

/-- Witness for `class_count_quota_sum`: the quota identity at the balanced
profile and length 12, and the analyzer count identity on the concretely
generated password of `oracleZero`. -/
theorem class_count_quota_sum_witness :
    (ucOf balancedConfig 12 + lcOf balancedConfig 12 + dcOf balancedConfig 12 +
      scOf balancedConfig 12 = 12) ∧
    ((analyzeDetails (buildPassword balancedConfig oracleZero 0 12)).uppercase_count +
     (analyzeDetails (buildPassword balancedConfig oracleZero 0 12)).lowercase_count +
     (analyzeDetails (buildPassword balancedConfig oracleZero 0 12)).digit_count +
     (analyzeDetails (buildPassword balancedConfig oracleZero 0 12)).special_char_count =
     (analyzeDetails (buildPassword balancedConfig oracleZero 0 12)).total_length) :=
  ⟨class_count_quota_sum.1 balancedConfig 12,
   class_count_quota_sum.2 balancedConfig oracleZero
     (fun _ l => List.Perm.refl l) 0 12⟩

/-- C8: for valid inputs (positive bounds in order, a known profile, a
permuting shuffle) every password the batch returns has length in the
inclusive range `[min_length, max_length]`; and the resolved-length map
`r ↦ r + min_length` is a bijection from the `randbelow` sample space
`[0, max_length - min_length + 1)` onto `[min_length, max_length]`, so the
uniform library draw induces a uniform length with no modulo bias. -/
theorem generated_length_in_range (num : Nat) (min_length max_length : Int)
    (complexity : String) (o : Oracle) (st : VaultState)
    (hm : 0 < min_length) (hmm : min_length ≤ max_length)
    (_hc : complexity = "low" ∨ complexity = "balanced" ∨ complexity = "high")
    (hsh : ShufflePerm o) :
    (∀ items,
      (generate_passwords num min_length max_length complexity o st).1 =
        .ok items →
      ∀ it ∈ items, min_length ≤ (it.password.length : Int) ∧
        (it.password.length : Int) ≤ max_length) ∧
    Set.BijOn (fun r : Int => r + min_length)
      (Set.Ico 0 (max_length - min_length + 1))
      (Set.Icc min_length max_length) := by
  constructor
  · intro items hitems it hit
    have hcfg := cfgOK_currentConfig complexity
    have hspec := generate_passwords_loop_spec (currentConfig complexity)
      min_length max_length o (by omega) hmm hcfg hsh num 0 [] st
    unfold generate_passwords at hitems
    rw [hspec] at hitems
    dsimp only at hitems
    rw [List.nil_append] at hitems
    have hitems2 : (batchSpec (currentConfig complexity) min_length max_length
        o num 0 st.passwords.length).items = items := by
      exact Except.ok.inj hitems
    rw [← hitems2] at hit
    obtain ⟨k, hk⟩ := List.mem_iff_getElem?.mp hit
    have hfacts := batchSpec_items_get (currentConfig complexity)
      min_length max_length o num 0 st.passwords.length k it hk
    have hpw := hfacts.2.1
    have hb := lengthSpec_bounds min_length max_length hmm o (0 + k)
    have hlen1 : 1 ≤ lengthSpec min_length max_length o (0 + k) := by omega
    have hl := buildPassword_length (currentConfig complexity) o hsh (0 + k)
      (lengthSpec min_length max_length o (0 + k)) hcfg hlen1
    rw [hpw, hl]
    omega
  · refine ⟨?_, ?_, ?_⟩
    · intro r hr
      simp only [Set.mem_Ico] at hr
      simp only [Set.mem_Icc]
      omega
    · intro a _ b _ hab
      simpa using hab
    · intro x hx
      simp only [Set.mem_Icc] at hx
      refine ⟨x - min_length, ?_, by ring⟩
      simp only [Set.mem_Ico]
      omega

/-- Witness for `generated_length_in_range` on a concrete valid batch. -/
theorem generated_length_in_range_witness :
    (∀ items,
      (generate_passwords 2 12 24 "balanced" oracleZero emptyVault).1 =
        .ok items →
      ∀ it ∈ items, (12 : Int) ≤ (it.password.length : Int) ∧
        (it.password.length : Int) ≤ 24) ∧
    Set.BijOn (fun r : Int => r + 12) (Set.Ico 0 (24 - 12 + 1))
      (Set.Icc 12 24) :=
  generated_length_in_range 2 12 24 "balanced" oracleZero emptyVault
    (by decide) (by decide) (Or.inr (Or.inl rfl))
    (fun _ l => List.Perm.refl l)

/-- C9: the strength rating returned by the analyzer is determined solely
by the complexity score through the fixed thresholds: score ≤ 2 gives
Weak ('Lemah'), 3 ≤ score ≤ 4 gives Medium ('Sedang'), and score ≥ 5 gives
Strong ('Kuat'). -/
theorem strength_rating_thresholds (p : List Char) (d : PasswordDetails)
    (h : analyze_password p = .ok d) :
    d.strength_rating = ratingOfScore d.complexity_score ∧
    (d.complexity_score ≤ 2 → d.strength_rating = "Lemah") ∧
    (3 ≤ d.complexity_score ∧ d.complexity_score ≤ 4 →
      d.strength_rating = "Sedang") ∧
    (5 ≤ d.complexity_score → d.strength_rating = "Kuat") := by
  have hd : d = analyzeDetails p := by
    unfold analyze_password at h
    by_cases hp : p.length = 0
    · rw [if_pos hp] at h
      exact absurd h (by simp)
    · rw [if_neg hp] at h
      exact (Except.ok.inj h).symm
  subst hd
  have hrat : (analyzeDetails p).strength_rating =
      ratingOfScore (analyzeDetails p).complexity_score := rfl
  refine ⟨hrat, ?_, ?_, ?_⟩
  · intro hs
    rw [hrat, ratingOfScore, if_pos hs]
  · intro hs
    rw [hrat, ratingOfScore, if_neg (by omega), if_pos hs.2]
  · intro hs
    rw [hrat, ratingOfScore, if_neg (by omega), if_neg (by omega)]

/-- Witness for `strength_rating_thresholds` at the concrete password "a"
(score 1, rated 'Lemah'). -/
theorem strength_rating_thresholds_witness :
    (analyzeDetails ['a']).strength_rating =
      ratingOfScore (analyzeDetails ['a']).complexity_score ∧
    ((analyzeDetails ['a']).complexity_score ≤ 2 →
      (analyzeDetails ['a']).strength_rating = "Lemah") ∧
    (3 ≤ (analyzeDetails ['a']).complexity_score ∧
        (analyzeDetails ['a']).complexity_score ≤ 4 →
      (analyzeDetails ['a']).strength_rating = "Sedang") ∧
    (5 ≤ (analyzeDetails ['a']).complexity_score →
      (analyzeDetails ['a']).strength_rating = "Kuat") :=
  strength_rating_thresholds ['a'] (analyzeDetails ['a'])
    (by with_unfolding_all rfl)

/-- C10: no store operation persists or logs a plaintext password.  After
any batch on a vault whose store already satisfies the shape invariant
(e.g. a fresh one), every row of the `passwords` table is exactly a
`recordFrom` row — display name, salted SHA-256 hash, salt, and the
analyzer metrics of some plaintext; the record type has no plaintext
column.  Every log line is one of the two fixed formats built only from
the display name and the row id.  The export path returns exactly the
stored rows, so every read/export path exposes only those fields; the
plaintext exists only in the returned batch items. -/
theorem store_persists_only_hash_salt_metrics (num : Nat)
    (min_length max_length : Int) (complexity : String) (o : Oracle)
    (st : VaultState)
    (hr : ∀ r ∈ st.passwords, StoredShape r)
    (hl : ∀ m ∈ st.logs, LogShape m) :
    (∀ r ∈ (generate_passwords num min_length max_length complexity o
        st).2.passwords, StoredShape r) ∧
    (∀ m ∈ (generate_passwords num min_length max_length complexity o
        st).2.logs, LogShape m) ∧
    export_vault (generate_passwords num min_length max_length complexity o
        st).2 =
      (generate_passwords num min_length max_length complexity o
        st).2.passwords := by
  have hres := generate_passwords_loop_stored (currentConfig complexity)
    min_length max_length o num 0 [] st hr hl
  exact ⟨hres.1, hres.2, rfl⟩

/-- Witness for `store_persists_only_hash_salt_metrics` on a concrete batch
over a fresh vault. -/
theorem store_persists_only_hash_salt_metrics_witness :
    (∀ r ∈ (generate_passwords 2 12 24 "balanced" oracleZero
        emptyVault).2.passwords, StoredShape r) ∧
    (∀ m ∈ (generate_passwords 2 12 24 "balanced" oracleZero
        emptyVault).2.logs, LogShape m) ∧
    export_vault (generate_passwords 2 12 24 "balanced" oracleZero
        emptyVault).2 =
      (generate_passwords 2 12 24 "balanced" oracleZero
        emptyVault).2.passwords :=
  store_persists_only_hash_salt_metrics 2 12 24 "balanced" oracleZero
    emptyVault (by simp [emptyVault]) (by simp [emptyVault])

/-- Supporting fact for the spec-modelled `verify_password`: a lookup of an
identifier that does not exist fails with `RecordNotFoundError`. -/
theorem verify_password_missing_record (candidate : String) :
    verify_password emptyVault 1 candidate = .error .recordNotFoundError := by
  rfl

/-- Supporting fact for the spec-modelled `verify_password`: verifying the
exact original plaintext against the record `_save_password` committed for
it returns `true` (the recomputed `SHA-256(candidate ++ salt)` is
syntactically the stored hash).  The converse direction — that every
single-character mutation verifies to `false` — is equivalent to the
absence of SHA-256 collisions among such pairs and is neither provable nor
refutable here. -/
theorem verify_password_original_matches (nm : String) (password : List Char)
    (d : PasswordDetails) (salt : String) :
    verify_password (save_password nm password d salt false emptyVault).2 1
      (String.mk password) = .ok true := by
  unfold save_password verify_password emptyVault
  rw [if_neg (by simp)]
  simp [List.find?]
